import Mathlib

/-!
Shallow embedding of the goduino Firmata client (src/goduino.go and the
7-bit codec file) together with theorems settling the spec claims.

Go `byte` values are modelled as `Nat` (with `% 256` inserted exactly where
Go's 8-bit arithmetic truncates), Go `int` values as `Int`, Go slices as
`List`, and Go strings produced by the codec as the list of decoded
character values.
-/

/-- `from7Bit` from the codec file: `(b0 & 0x7F) | ((b1 & 0x7F) << 7)` over
Go `byte` arithmetic.  The shift is performed on a `byte`, so its result is
truncated mod 256 before the or. -/
def from7Bit (b0 b1 : Nat) : Nat :=
  (b0 &&& 0x7F) ||| (((b1 &&& 0x7F) <<< 7) % 256)

/-- `to7Bit` from the codec file: `[]byte{i & 0x7f, (i >> 7) & 0x7f}` for a
`byte` argument `i` (so theorems restrict `i < 256`). -/
def to7Bit (i : Nat) : List Nat :=
  [i &&& 0x7f, (i >>> 7) &&& 0x7f]

/-- `intto7Bit` from the codec file:
`[]byte{byte(i & 0x7f), byte((i >> 7) & 0x7f), byte((i >> 14) & 0x7f)}`.
The Go argument is an `int`; the claims only concern non-negative values,
on which Go's shift/mask arithmetic agrees with `Nat`. -/
def intto7Bit (i : Nat) : List Nat :=
  [i &&& 0x7f, (i >>> 7) &&& 0x7f, (i >>> 14) &&& 0x7f]

/-- The loop body of `multibyteString`: decode consecutive byte pairs with
`from7Bit`, one output character per pair.  The Go loop walks an even-length
slice two bytes at a time; on such input this recursion visits exactly the
same pairs. -/
def decodePairs : List Nat → List Nat
  | b0 :: b1 :: rest => from7Bit b0 b1 :: decodePairs rest
  | _ => []

/-- `multibyteString` from the codec file: if the input length is odd a zero
byte is appended, then consecutive pairs are decoded with `from7Bit` and
concatenated.  The resulting Go string is modelled as the list of decoded
character values. -/
def multibyteString (data : List Nat) : List Nat :=
  decodePairs (if data.length % 2 ≠ 0 then data ++ [0] else data)

/-- Validity of the byte pairs of a sequence for exact re-encoding: the low
byte of each pair fits in 7 bits and the high byte contributes only its
lowest bit. -/
def pairsValid : List Nat → Bool
  | b0 :: b1 :: rest => decide (b0 < 128) && decide (b1 < 2) && pairsValid rest
  | [] => true
  | [_] => false

lemma and_127_eq_mod (x : Nat) : x &&& 127 = x % 128 := by
  have h := Nat.and_pow_two_sub_one_eq_mod x 7
  norm_num at h
  exact h

lemma or_mul_128_eq_add (b a : Nat) (hb : b < 128) : b ||| a * 128 = 128 * a + b := by
  have h := Nat.mul_add_lt_is_or (i := 7) (b := b) (by norm_num at hb ⊢; omega) a
  rw [Nat.or_comm, Nat.mul_comm a 128]
  norm_num at h ⊢
  omega

lemma from7Bit_eq_add (b0 b1 : Nat) (h0 : b0 < 128) :
    from7Bit b0 b1 = 128 * (b1 % 2) + b0 := by
  unfold from7Bit
  rw [show (0x7F : Nat) = 127 from rfl, and_127_eq_mod b0, and_127_eq_mod b1,
    Nat.shiftLeft_eq, Nat.mod_eq_of_lt h0]
  have hrw : b1 % 128 * 2 ^ 7 % 256 = (b1 % 2) * 128 := by omega
  rw [hrw, or_mul_128_eq_add _ _ h0]

lemma to7Bit_from7Bit (b0 b1 : Nat) (h0 : b0 < 128) (h1 : b1 < 2) :
    to7Bit (from7Bit b0 b1) = [b0, b1] := by
  rw [from7Bit_eq_add b0 b1 h0, Nat.mod_eq_of_lt h1]
  unfold to7Bit
  rw [and_127_eq_mod, and_127_eq_mod, Nat.shiftRight_eq_div_pow]
  norm_num
  constructor <;> omega

lemma decodePairs_roundtrip : ∀ data : List Nat, pairsValid data = true →
    ((decodePairs data).map to7Bit).flatten = data
  | [], _ => rfl
  | [_], h => by simp [pairsValid] at h
  | b0 :: b1 :: rest, h => by
    have hsplit : b0 < 128 ∧ b1 < 2 ∧ pairsValid rest = true := by
      simpa [pairsValid, Bool.and_eq_true, decide_eq_true_eq, and_assoc] using h
    simp only [decodePairs, List.map_cons, List.flatten]
    rw [to7Bit_from7Bit b0 b1 hsplit.1 hsplit.2.1]
    simpa using decodePairs_roundtrip rest hsplit.2.2

lemma decodePairs_length : ∀ data : List Nat,
    (decodePairs data).length = data.length / 2
  | [] => rfl
  | [_] => by simp [decodePairs]
  | _ :: _ :: rest => by
    simp only [decodePairs, List.length_cons, decodePairs_length rest]
    omega

/-- Claim C4 counterexample: the even-length sequence `[0, 2]` is not
reproduced by decoding with `multibyteString` and re-encoding each decoded
character through `to7Bit`: the byte-level shift in `from7Bit` discards every
bit of the pair's high byte except the lowest, so the decode yields `[0]` and
the re-encode `[0, 0]`. -/
theorem multibyteString_roundtrip_fails_concrete :
    ((multibyteString [0, 2]).map to7Bit).flatten ≠ [0, 2] := by decide

/-- Claim C4 (amended): for every even-length byte sequence whose pairs lie
in the image of the encoding (low byte < 128, high byte < 2), decoding with
`multibyteString` and re-encoding each decoded character through `to7Bit`
pairs reproduces the original sequence exactly. -/
theorem multibyteString_roundtrip_on_valid_pairs (data : List Nat)
    (heven : data.length % 2 = 0) (hvalid : pairsValid data = true) :
    ((multibyteString data).map to7Bit).flatten = data := by
  unfold multibyteString
  rw [if_neg (by omega)]
  exact decodePairs_roundtrip data hvalid

/-- Witness for C4's amended theorem at the concrete sequence
`[5, 1, 127, 0]`. -/
theorem multibyteString_roundtrip_on_valid_pairs_witness :
    ((multibyteString [5, 1, 127, 0]).map to7Bit).flatten = [5, 1, 127, 0] :=
  multibyteString_roundtrip_on_valid_pairs [5, 1, 127, 0] (by decide) (by decide)

/-- Claim C5 counterexample: at `b0 = 0`, `b1 = 2` (both < 128) `from7Bit`
does not return `b0 ||| (b1 <<< 7)`: Go's byte-valued shift truncates mod
256, giving 0 instead of 256. -/
theorem from7Bit_not_lor_concrete :
    (0 : Nat) < 128 ∧ (2 : Nat) < 128 ∧ from7Bit 0 2 ≠ 0 ||| (2 <<< 7) := by
  decide

/-- Claim C5 (amended): for bytes `b0, b1 < 128`, `from7Bit` returns the byte
truncation `(b0 ||| (b1 <<< 7)) % 256` (only the lowest bit of `b1`
survives); `to7Bit` is its inverse on single bytes: for every byte `v < 256`,
`from7Bit` applied to the two bytes of `to7Bit v` yields `v`, and for
`v ≤ 127` the high byte of `to7Bit v` is 0. -/
theorem from7Bit_truncates_to7Bit_inverse (b0 b1 v : Nat)
    (h0 : b0 < 128) (h1 : b1 < 128) (hv : v < 256) :
    from7Bit b0 b1 = (b0 ||| (b1 <<< 7)) % 256 ∧
    from7Bit ((to7Bit v).getD 0 0) ((to7Bit v).getD 1 0) = v ∧
    (v ≤ 127 → (to7Bit v).getD 1 0 = 0) := by
  refine ⟨?_, ?_, ?_⟩
  · rw [from7Bit_eq_add b0 b1 h0, Nat.shiftLeft_eq,
      or_mul_128_eq_add _ _ (by omega)]
    omega
  · show from7Bit (v &&& 0x7f) ((v >>> 7) &&& 0x7f) = v
    rw [show (0x7f : Nat) = 127 from rfl, and_127_eq_mod, and_127_eq_mod,
      Nat.shiftRight_eq_div_pow,
      from7Bit_eq_add _ _ (Nat.mod_lt _ (by norm_num))]
    omega
  · intro hle
    show (v >>> 7) &&& 0x7f = 0
    rw [show (0x7f : Nat) = 127 from rfl, and_127_eq_mod,
      Nat.shiftRight_eq_div_pow]
    omega

/-- Witness for C5's amended theorem at `b0 = 3`, `b1 = 5`, `v = 200`. -/
theorem from7Bit_truncates_to7Bit_inverse_witness :
    from7Bit 3 5 = (3 ||| (5 <<< 7)) % 256 ∧
    from7Bit ((to7Bit 200).getD 0 0) ((to7Bit 200).getD 1 0) = 200 ∧
    ((200 : Nat) ≤ 127 → (to7Bit 200).getD 1 0 = 0) :=
  from7Bit_truncates_to7Bit_inverse 3 5 200 (by decide) (by decide) (by decide)

/-- Claim C6: `multibyteString` is total on odd-length input: an odd-length
sequence is decoded exactly as its zero-padded even-length extension, and the
output has one decoded byte per consecutive input pair (length
`⌈n / 2⌉`). -/
theorem multibyteString_odd_pads_zero (data : List Nat) :
    (data.length % 2 = 1 → multibyteString data = multibyteString (data ++ [0])) ∧
    (multibyteString data).length = (data.length + 1) / 2 := by
  constructor
  · intro hodd
    unfold multibyteString
    rw [if_pos (by omega), if_neg (by simp; omega)]
  · unfold multibyteString
    by_cases h : data.length % 2 ≠ 0
    · rw [if_pos h, decodePairs_length]
      simp
    · rw [if_neg h, decodePairs_length]
      omega

/-- Witness for C6 at the odd-length sequence `[1, 2, 3]`. -/
theorem multibyteString_odd_pads_zero_witness :
    multibyteString [1, 2, 3] = multibyteString ([1, 2, 3] ++ [0]) ∧
    (multibyteString [1, 2, 3]).length = 2 :=
  ⟨(multibyteString_odd_pads_zero [1, 2, 3]).1 (by decide),
    (multibyteString_odd_pads_zero [1, 2, 3]).2⟩

/-- Claim C7: for every `v < 2^21`, `intto7Bit v` is exactly three bytes,
each below 128, and their 7-bit recombination
`b0 ||| (b1 <<< 7) ||| (b2 <<< 14)` equals `v`. -/
theorem intto7Bit_three_bytes_recombine (v : Nat) (h : v < 2 ^ 21) :
    (intto7Bit v).length = 3 ∧ (∀ x ∈ intto7Bit v, x < 128) ∧
    (intto7Bit v).getD 0 0 ||| (((intto7Bit v).getD 1 0) <<< 7) |||
      (((intto7Bit v).getD 2 0) <<< 14) = v := by
  refine ⟨rfl, ?_, ?_⟩
  · intro x hx
    simp only [intto7Bit, List.mem_cons, List.not_mem_nil, or_false] at hx
    rcases hx with h | h | h <;>
      · rw [h, show (0x7f : Nat) = 127 from rfl, and_127_eq_mod]
        omega
  · show (v &&& 0x7f) ||| (((v >>> 7) &&& 0x7f) <<< 7) |||
      (((v >>> 14) &&& 0x7f) <<< 14) = v
    rw [show (0x7f : Nat) = 127 from rfl, and_127_eq_mod, and_127_eq_mod,
      and_127_eq_mod, Nat.shiftRight_eq_div_pow, Nat.shiftRight_eq_div_pow,
      Nat.shiftLeft_eq, Nat.shiftLeft_eq,
      show (2 : Nat) ^ 7 = 128 from rfl,
      or_mul_128_eq_add _ _ (Nat.mod_lt _ (by norm_num))]
    have h14 : 128 * (v / 128 % 128) + v % 128 < 2 ^ 14 := by omega
    have hor := Nat.mul_add_lt_is_or (i := 14)
      (b := 128 * (v / 128 % 128) + v % 128) h14 (v / 2 ^ 14 % 128)
    rw [Nat.or_comm] at hor
    rw [Nat.mul_comm (v / 2 ^ 14 % 128) (2 ^ 14), ← hor]
    omega

/-- Witness for C7 at `v = 1234567`. -/
theorem intto7Bit_three_bytes_recombine_witness :
    (intto7Bit 1234567).length = 3 ∧ (∀ x ∈ intto7Bit 1234567, x < 128) ∧
    (intto7Bit 1234567).getD 0 0 ||| (((intto7Bit 1234567).getD 1 0) <<< 7) |||
      (((intto7Bit 1234567).getD 2 0) <<< 14) = 1234567 :=
  intto7Bit_three_bytes_recombine 1234567 (by norm_num)

/-- Modelled from the spec: the pin mode constants re-exported at the top of
src/goduino.go come from the firmata package, which is not under src/; the
spec (§6) lists them as Input, Output, Analog, Pwm, Servo.  The concrete
values are the standard Firmata mode ids; only their distinctness matters to
the claims. -/
def Input : Int := 0

def Output : Int := 1

def Analog : Int := 2

def Pwm : Int := 3

def Servo : Int := 4

/-- Modelled from the spec: `firmata.Pin`, the per-pin state of the Pin
Table (§3): current mode and current value. -/
structure Pin where
  Mode : Int
  Value : Int
deriving DecidableEq

/-- Modelled from the spec: the structured outgoing commands the engine's
Command Encoder (§4.3) produces; the facade claims only concern which
command is issued with which arguments, so commands are kept structured
rather than as raw frames.  `servoConfig`'s second field is the min-pulse
and its third the max-pulse, in the wire order of §4.3. -/
inductive Cmd where
  | setPinMode (pin mode : Int)
  | reportAnalog (pin state : Int)
  | reportDigital (pin state : Int)
  | analogWrite (pin value : Int)
  | servoConfig (pin minPulse maxPulse : Int)
deriving DecidableEq

/-- Modelled from the spec: the firmata board behind the `firmataBoard`
interface of src/goduino.go (its implementation is not under src/): a Pin
Table and a connected flag. -/
structure Board where
  pins : List Pin
  connected : Bool
deriving DecidableEq

/-- Go slice indexing `pins[i]` with an `int` index: in bounds only for
`0 ≤ i < len`; outside that range Go panics. -/
def getPin (pins : List Pin) (i : Int) : Option Pin :=
  if h : 0 ≤ i ∧ i.toNat < pins.length then some (pins.get ⟨i.toNat, h.2⟩)
  else none

/-- Update the table's mode field at an index, leaving the table unchanged
when the index is out of range. -/
def setPinAt (pins : List Pin) (i mode : Int) : List Pin :=
  if h : 0 ≤ i ∧ i.toNat < pins.length then
    pins.set i.toNat { pins.get ⟨i.toNat, h.2⟩ with Mode := mode }
  else pins

/-- Modelled from the spec: `firmata` board `SetPinMode` — sends the
set-pin-mode command and optimistically updates the table's mode field
(§4.5); the encoder never fails on structured input (§4.3). -/
def Board.SetPinMode (b : Board) (pin mode : Int) : Board × List Cmd :=
  ({ b with pins := setPinAt b.pins pin mode }, [Cmd.setPinMode pin mode])

/-- Modelled from the spec: `firmata` board `AnalogWrite` — encode and send,
no table change, no synchronous reply wait (§4.5). -/
def Board.AnalogWrite (b : Board) (pin value : Int) : Board × List Cmd :=
  (b, [Cmd.analogWrite pin value])

/-- Modelled from the spec: `firmata` board `ReportAnalog` — encode and send
the analog report-enable toggle (§4.3). -/
def Board.ReportAnalog (b : Board) (pin state : Int) : Board × List Cmd :=
  (b, [Cmd.reportAnalog pin state])

/-- Modelled from the spec: `firmata` board `ReportDigital` — encode and
send the digital report-enable toggle (§4.3). -/
def Board.ReportDigital (b : Board) (pin state : Int) : Board × List Cmd :=
  (b, [Cmd.reportDigital pin state])

/-- Modelled from the spec: `firmata` board `ServoConfig` — sysex-wrapped
pin + min-pulse + max-pulse in argument order (§4.3). -/
def Board.ServoConfig (b : Board) (pin minPulse maxPulse : Int) :
    Board × List Cmd :=
  (b, [Cmd.servoConfig pin minPulse maxPulse])

/-- Modelled from the spec: `firmata` board `Disconnect` — stops the
listener, releases the transport, transitions to Disconnected; idempotent,
never a failure (§4.5). -/
def Board.Disconnect (b : Board) : Except String Board :=
  .ok { b with connected := false }

/-- The `Goduino` client of src/goduino.go; only the `board` field matters
to the claims.  `New` always installs a board, but `Disconnect` checks the
field against nil, so it is modelled as optional. -/
structure Goduino where
  board : Option Board
deriving DecidableEq

/-- Outcome of running a facade method: a returned value, a returned Go
error, or a runtime panic (nil dereference / slice index out of range). -/
inductive RunResult (α : Type) where
  | ok (a : α)
  | err (msg : String)
  | panicked
deriving DecidableEq

/-- `ServoWrite` from src/goduino.go: reads `Pins()[pin].Mode` (panicking
when `pin` is out of range), auto-switches the mode to Servo when it
differs, then issues the analog write.  The modelled board operations never
fail, so the error-propagation branches of the source cannot fire. -/
def ServoWrite (ino : Goduino) (pin : Int) (angle : Nat) :
    RunResult (Goduino × List Cmd) :=
  match ino.board with
  | none => .panicked
  | some b =>
    match getPin b.pins pin with
    | none => .panicked
    | some p =>
      if p.Mode ≠ Servo then
        let r1 := b.SetPinMode pin Servo
        let r2 := r1.1.AnalogWrite pin (Int.ofNat angle)
        .ok (⟨some r2.1⟩, r1.2 ++ r2.2)
      else
        let r2 := b.AnalogWrite pin (Int.ofNat angle)
        .ok (⟨some r2.1⟩, r2.2)

/-- `PwmWrite` from src/goduino.go: same shape as `ServoWrite` with the Pwm
mode. -/
def PwmWrite (ino : Goduino) (pin : Int) (level : Nat) :
    RunResult (Goduino × List Cmd) :=
  match ino.board with
  | none => .panicked
  | some b =>
    match getPin b.pins pin with
    | none => .panicked
    | some p =>
      if p.Mode ≠ Pwm then
        let r1 := b.SetPinMode pin Pwm
        let r2 := r1.1.AnalogWrite pin (Int.ofNat level)
        .ok (⟨some r2.1⟩, r1.2 ++ r2.2)
      else
        let r2 := b.AnalogWrite pin (Int.ofNat level)
        .ok (⟨some r2.1⟩, r2.2)

/-- `ServoConfig` from src/goduino.go: forwards to the board's servo-config
command as `board.ServoConfig(pin, max, min)` — note the argument order of
the source. -/
def ServoConfig (ino : Goduino) (pin mn mx : Int) :
    RunResult (Goduino × List Cmd) :=
  match ino.board with
  | none => .panicked
  | some b =>
    let r := b.ServoConfig pin mx mn
    .ok (⟨some r.1⟩, r.2)

/-- Go's `uint8(pin)` conversion of an `int`: truncation to the
representative of `pin` mod 256 in `[0, 256)`. -/
def goUint8 (i : Int) : Nat := (i % 256).toNat

/-- `digitalPin` from src/goduino.go: converts a pin number to its analog
channel's digital mapping. -/
def digitalPin (pin : Int) : Int := pin + 14

/-- `PinMode` from src/goduino.go: the validity check
`uint8(pin) < 0 || pin > len(ino.board.Pins())` followed by the per-mode
switch (Input: set mode + report digital; Analog: remap through
`digitalPin`, set mode + report analog; default: set mode only). -/
def PinMode (ino : Goduino) (pin mode : Int) : RunResult (Goduino × List Cmd) :=
  match ino.board with
  | none => .panicked
  | some b =>
    if goUint8 pin < 0 ∨ pin > (b.pins.length : Int) then
      .err "Invalid pin number"
    else if mode = Input then
      let r1 := b.SetPinMode pin mode
      let r2 := r1.1.ReportDigital pin 1
      .ok (⟨some r2.1⟩, r1.2 ++ r2.2)
    else if mode = Analog then
      let pin2 := digitalPin pin
      let r1 := b.SetPinMode pin2 mode
      let r2 := r1.1.ReportAnalog pin2 1
      .ok (⟨some r2.1⟩, r1.2 ++ r2.2)
    else
      let r1 := b.SetPinMode pin mode
      .ok (⟨some r1.1⟩, r1.2)

/-- `Disconnect` from src/goduino.go: delegates to the board's Disconnect
when a board is present, otherwise returns nil. -/
def Disconnect (ino : Goduino) : Except String Goduino :=
  match ino.board with
  | some b =>
    match b.Disconnect with
    | .ok b2 => .ok ⟨some b2⟩
    | .error e => .error e
  | none => .ok ino

/-- A six-pin table whose pins are all in Input mode with value 0, and the
connected client over it; used as the concrete state of several claims. -/
def pinsSix : List Pin :=
  [⟨Input, 0⟩, ⟨Input, 0⟩, ⟨Input, 0⟩, ⟨Input, 0⟩, ⟨Input, 0⟩, ⟨Input, 0⟩]

def boardSix : Board := ⟨pinsSix, true⟩

def inoSix : Goduino := ⟨some boardSix⟩

/-- A two-pin table and the connected client over it. -/
def pinsTwo : List Pin := [⟨Input, 0⟩, ⟨Input, 0⟩]

def inoTwo : Goduino := ⟨some ⟨pinsTwo, true⟩⟩

/-- Claim C1 counterexample: with pin 5's table mode still Input,
`ServoWrite 5 90` does not fail with a ModeMismatch error and does send a
write command: it auto-switches the mode to Servo and issues the analog
write. -/
theorem servoWrite_unset_mode_succeeds_concrete :
    ServoWrite inoSix 5 90 =
      RunResult.ok (⟨some ⟨[⟨Input, 0⟩, ⟨Input, 0⟩, ⟨Input, 0⟩, ⟨Input, 0⟩,
        ⟨Input, 0⟩, ⟨Servo, 0⟩], true⟩⟩,
        [Cmd.setPinMode 5 Servo, Cmd.analogWrite 5 90]) := by decide

/-- Claim C1 (amended): for every in-range pin whose table mode is not
Servo, `ServoWrite` does not fail with ModeMismatch: it first issues
set-pin-mode to Servo (switching the table mode) and then issues the analog
write command for the pin. -/
theorem servoWrite_non_servo_auto_switches (b : Board) (pin : Int)
    (angle : Nat) (p : Pin) (hget : getPin b.pins pin = some p)
    (hmode : p.Mode ≠ Servo) :
    ServoWrite ⟨some b⟩ pin angle =
      RunResult.ok (⟨some { b with pins := setPinAt b.pins pin Servo }⟩,
        [Cmd.setPinMode pin Servo, Cmd.analogWrite pin (Int.ofNat angle)]) := by
  simp only [ServoWrite, hget]
  rw [if_pos hmode]
  rfl

/-- Witness for C1's amended theorem: client over `boardSix`, pin 5 (mode
Input), angle 90. -/
theorem servoWrite_non_servo_auto_switches_witness :
    ServoWrite ⟨some boardSix⟩ 5 90 =
      RunResult.ok (⟨some { boardSix with pins := setPinAt boardSix.pins 5 Servo }⟩,
        [Cmd.setPinMode 5 Servo, Cmd.analogWrite 5 (Int.ofNat 90)]) :=
  servoWrite_non_servo_auto_switches boardSix 5 90 ⟨Input, 0⟩
    (by decide) (by decide)

/-- Claim C2: `ServoConfig(1, min := 1000, max := 2000)` forwards the
caller's max into the command's min-pulse field and the caller's min into
its max-pulse field — the source calls `board.ServoConfig(pin, max, min)`,
swapping the two. -/
theorem servoConfig_swaps_min_max_concrete :
    ServoConfig inoSix 1 1000 2000 =
      RunResult.ok (inoSix, [Cmd.servoConfig 1 2000 1000]) := by decide

/-- Claim C3: the validity check of `PinMode` lets out-of-range indices
through: `uint8(pin) < 0` is vacuously false and the upper bound uses `>`
instead of `>=`, so on a two-pin table both pin -1 and pin 2 pass the check
and a set-pin-mode command is emitted for them instead of an error. -/
theorem pinMode_out_of_range_sends_concrete :
    PinMode inoTwo (-1) Output =
      RunResult.ok (inoTwo, [Cmd.setPinMode (-1) Output]) ∧
    PinMode inoTwo 2 Output =
      RunResult.ok (inoTwo, [Cmd.setPinMode 2 Output]) := by decide

/-- Claim C8: `Disconnect` is idempotent at the facade: after a successful
`Disconnect`, a second `Disconnect` succeeds and changes nothing. -/
theorem disconnect_idempotent (ino ino1 : Goduino)
    (h : Disconnect ino = Except.ok ino1) :
    Disconnect ino1 = Except.ok ino1 := by
  rcases ino with ⟨b⟩
  cases b with
  | none =>
    simp only [Disconnect] at h
    cases h
    rfl
  | some b =>
    simp only [Disconnect, Board.Disconnect] at h
    cases h
    rfl

/-- Witness for C8: the client over `boardSix` after one `Disconnect`. -/
theorem disconnect_idempotent_witness :
    Disconnect ⟨some ⟨pinsSix, false⟩⟩ = Except.ok ⟨some ⟨pinsSix, false⟩⟩ :=
  disconnect_idempotent inoSix ⟨some ⟨pinsSix, false⟩⟩ (by rfl)

lemma PinMode_reduce (b : Board) (pin mode : Int) :
    PinMode ⟨some b⟩ pin mode =
      if goUint8 pin < 0 ∨ pin > (b.pins.length : Int) then
        RunResult.err "Invalid pin number"
      else if mode = Input then
        RunResult.ok (⟨some { b with pins := setPinAt b.pins pin mode }⟩,
          [Cmd.setPinMode pin mode, Cmd.reportDigital pin 1])
      else if mode = Analog then
        RunResult.ok
          (⟨some { b with pins := setPinAt b.pins (digitalPin pin) mode }⟩,
            [Cmd.setPinMode (digitalPin pin) mode,
              Cmd.reportAnalog (digitalPin pin) 1])
      else
        RunResult.ok (⟨some { b with pins := setPinAt b.pins pin mode }⟩,
          [Cmd.setPinMode pin mode]) := rfl

/-- Claim C9: for every pin index passing `PinMode`'s validity check, the
Analog branch issues set-pin-mode and report-analog for the remapped index
`pin + 14` (the check itself having been applied to the original index),
while the Input branch and the default branch issue their commands for the
caller's index unchanged. -/
theorem pinMode_analog_remaps_pin (b : Board) (pin mode : Int)
    (hpass : pin ≤ (b.pins.length : Int)) :
    (∃ b1, PinMode ⟨some b⟩ pin Analog =
      RunResult.ok (b1, [Cmd.setPinMode (pin + 14) Analog,
        Cmd.reportAnalog (pin + 14) 1])) ∧
    (mode = Input → ∃ b2, PinMode ⟨some b⟩ pin mode =
      RunResult.ok (b2, [Cmd.setPinMode pin mode, Cmd.reportDigital pin 1])) ∧
    (mode ≠ Input → mode ≠ Analog → ∃ b3, PinMode ⟨some b⟩ pin mode =
      RunResult.ok (b3, [Cmd.setPinMode pin mode])) := by
  have hc : ¬(goUint8 pin < 0 ∨ pin > (b.pins.length : Int)) := by
    rintro (hlt | hgt)
    · exact Nat.not_lt_zero _ hlt
    · omega
  refine
    ⟨⟨⟨some { b with pins := setPinAt b.pins (digitalPin pin) Analog }⟩, ?_⟩,
      fun hm => ⟨⟨some { b with pins := setPinAt b.pins pin mode }⟩, ?_⟩,
      fun hm1 hm2 => ⟨⟨some { b with pins := setPinAt b.pins pin mode }⟩, ?_⟩⟩
  · rw [PinMode_reduce, if_neg hc, if_neg (by decide : ¬(Analog = Input)),
      if_pos rfl]
    rfl
  · subst hm
    rw [PinMode_reduce, if_neg hc, if_pos rfl]
  · rw [PinMode_reduce, if_neg hc, if_neg hm1, if_neg hm2]

/-- Witness for C9: `boardSix`, pin 3, other mode Output. -/
theorem pinMode_analog_remaps_pin_witness :
    (∃ b1, PinMode ⟨some boardSix⟩ 3 Analog =
      RunResult.ok (b1, [Cmd.setPinMode (3 + 14) Analog,
        Cmd.reportAnalog (3 + 14) 1])) ∧
    (Output = Input → ∃ b2, PinMode ⟨some boardSix⟩ 3 Output =
      RunResult.ok (b2, [Cmd.setPinMode 3 Output, Cmd.reportDigital 3 1])) ∧
    (Output ≠ Input → Output ≠ Analog → ∃ b3, PinMode ⟨some boardSix⟩ 3 Output =
      RunResult.ok (b3, [Cmd.setPinMode 3 Output])) :=
  pinMode_analog_remaps_pin boardSix 3 Output (by decide)

/-- Claim C10: `ServoWrite` and `PwmWrite` perform no pin-index validation:
for every index outside the table range the `Pins()[pin]` lookup is out of
bounds and the call panics; no OutOfRange error is ever returned. -/
theorem servoWrite_pwmWrite_no_range_check (b : Board) (pin : Int) (v : Nat)
    (h : pin < 0 ∨ (b.pins.length : Int) ≤ pin) :
    ServoWrite ⟨some b⟩ pin v = RunResult.panicked ∧
    PwmWrite ⟨some b⟩ pin v = RunResult.panicked := by
  have hcond : ¬(0 ≤ pin ∧ pin.toNat < b.pins.length) := by
    rintro ⟨h1, h2⟩
    omega
  have hget : getPin b.pins pin = none := by
    unfold getPin
    rw [dif_neg hcond]
  constructor
  · simp only [ServoWrite, hget]
  · simp only [PwmWrite, hget]

/-- Witness for C10: pin 6 on the six-pin table. -/
theorem servoWrite_pwmWrite_no_range_check_witness :
    ServoWrite ⟨some boardSix⟩ 6 90 = RunResult.panicked ∧
    PwmWrite ⟨some boardSix⟩ 6 90 = RunResult.panicked :=
  servoWrite_pwmWrite_no_range_check boardSix 6 90 (by decide)
